import Mathlib

/-!
Shallow embedding of the `DeliveryMap` React component of the `foodie`
repository, together with proofs of the specified marker-lifecycle and
camera-tracking properties.

The repository contains two revisions of the component:

* `src/components/map/delivery-map.tsx` — the earlier revision: its
  initialization effect depends on the computed center, its static-marker
  effect appends fresh markers on every run, it tracks the partner with
  `flyTo`, and the dependency list of its partner effect reads
  `partnerLocation.lat` without optional chaining.
* `src/unnamed/part_000` — the corrected revision (the specification
  documents the earlier initialization behaviour as a defect that was
  corrected by keying initialization on mount only, and designates the
  zoom-preserving `easeTo` tracking policy as the operative one): the
  initialization effect has an empty dependency list and a `map.current`
  guard, each role owns a single marker ref that is created once and
  repositioned thereafter, and the partner effect eases the camera over
  1000 ms with the identity easing and no zoom change.

`DeliveryMapV2` below embeds the corrected revision as a state machine
driven by render and load events; `DeliveryMapV1` embeds the render-time
computations of the earlier revision that the claims need (the initial
center choice and the evaluation of the partner effect's dependency list,
which in JavaScript throws a `TypeError` when `partnerLocation` is
`undefined`).

Modelling notes, applying to `DeliveryMapV2.render`:
* React re-runs an effect only when its dependency values changed since
  the previous render.  The model runs every effect body (with its source
  guards) on every render event: a run whose dependency values are
  unchanged repositions a marker to the coordinate it already has, which
  is a no-op on marker state, so the marker state computed by the model
  agrees with the component.
* The `NavigationControl` attached at initialization and the marker
  elements' inner SVG markup are presentational; the element model keeps
  the discriminating visual data (box width and background colour taken
  from the two `innerHTML` strings of each revision).
-/

namespace Foodie

/-- A latitude/longitude pair, the `{lat, lng}` objects of the props. -/
structure Coord where
  lat : Rat
  lng : Rat
deriving DecidableEq, Repr

/-- The props of `DeliveryMap` (`DeliveryMapProps`): three optional
coordinates.  The `className` styling hook is presentational and not
modelled. -/
structure Props where
  restaurantLocation : Option Coord
  deliveryLocation : Option Coord
  partnerLocation : Option Coord
deriving DecidableEq, Repr

/-- `const defaultCenter = { lat: 12.9716, lng: 77.5946 }` (both revisions).
The rationals 12.9716 and 77.5946 are written as explicit reduced
fractions 32429/2500 and 387973/5000 so that they evaluate by `decide`. -/
def defaultCenter : Coord :=
  { lat := ⟨32429, 2500, by decide, by decide⟩
    lng := ⟨387973, 5000, by decide, by decide⟩ }

/-- The discriminating visual data of a marker element: the width and the
background colour of the styled `div` assigned to `el.innerHTML`. -/
structure MarkerEl where
  width : Nat
  background : String
deriving DecidableEq, Repr

/-- Restaurant marker element: 36 px, `hsl(25 95% 48%)`. -/
def restaurantEl : MarkerEl := { width := 36, background := "hsl(25 95% 48%)" }

/-- Delivery-destination marker element: 36 px, `#10b981`. -/
def deliveryEl : MarkerEl := { width := 36, background := "#10b981" }

/-- Partner marker element: 40 px (larger, highlighted), `#3b82f6`. -/
def partnerEl : MarkerEl := { width := 40, background := "#3b82f6" }

/-- A `maplibregl.Marker` object placed on the map: the `id` identifies
the allocation (`new maplibregl.Marker(...)`), `element` its styling,
`lngLat` its current position (`setLngLat`). -/
structure Marker where
  id : Nat
  element : MarkerEl
  lngLat : Coord
deriving DecidableEq, Repr

/-- The three marker roles of the specification. -/
inductive Role where
  | restaurant
  | delivery
  | partner
deriving DecidableEq, Repr

/-- The marker element used for each role. -/
def roleEl : Role → MarkerEl
  | .restaurant => restaurantEl
  | .delivery => deliveryEl
  | .partner => partnerEl

/-- The coordinate prop of each role. -/
def roleCoord : Role → Props → Option Coord
  | .restaurant, p => p.restaurantLocation
  | .delivery, p => p.deliveryLocation
  | .partner, p => p.partnerLocation

/-- The markers on the map carrying a given element (the live marker
handles of one role). -/
def markersOf (el : MarkerEl) (ms : List Marker) : List Marker :=
  ms.filter fun m => decide (m.element = el)

namespace DeliveryMapV2

/-- The options record passed to `map.current.easeTo` at
`src/unnamed/part_000` lines 116–122. -/
structure EaseOptions where
  center : Coord
  duration : Nat
  easing : Rat → Rat
  essential : Bool

/-- The literal `easeTo` call of the partner effect:
`{ center: [lng, lat], duration: 1000, easing: (t) => t, essential: true }`;
no `zoom` property is passed. -/
def easeCall (c : Coord) : EaseOptions :=
  { center := c, duration := 1000, easing := fun t => t, essential := true }

/-- The `maplibregl.Map` instance: its camera center and zoom.  (Style,
tile source and controls are presentational and fixed at creation.) -/
structure MapInstance where
  center : Coord
  zoom : Rat
deriving DecidableEq, Repr

/-- The state of one mounted `DeliveryMap` (corrected revision): the
`useRef` cells, the `mapLoaded` state, the markers owned by the map, a
fresh-id counter for marker allocations, a count of `new maplibregl.Map`
calls, the log of `easeTo` camera calls, and the props of the latest
render (used when the `load` event triggers a re-render). -/
structure DMState where
  map : Option MapInstance
  markers : List Marker
  restaurantMarkerRef : Option Nat
  deliveryMarkerRef : Option Nat
  partnerMarkerRef : Option Nat
  mapLoaded : Bool
  nextMarkerId : Nat
  mapCreateCount : Nat
  cameraLog : List EaseOptions
  lastProps : Props

/-- The marker ref cell of each role. -/
def roleRef : Role → DMState → Option Nat
  | .restaurant, s => s.restaurantMarkerRef
  | .delivery, s => s.deliveryMarkerRef
  | .partner, s => s.partnerMarkerRef

/-- `marker.setLngLat(c)` as an action on the map's marker list: reposition
the marker with id `i`. -/
def updPos (i : Nat) (c : Coord) (m : Marker) : Marker :=
  if m.id = i then { m with lngLat := c } else m

/-- The create-or-reposition branch shared by all three roles: if the ref
is empty, allocate a fresh marker at the coordinate and store its id in
the ref; otherwise `setLngLat` the existing marker.  Returns the new ref,
marker list and fresh-id counter. -/
def upsertMarker (el : MarkerEl) (c : Coord) (ref : Option Nat)
    (ms : List Marker) (n : Nat) : Option Nat × List Marker × Nat :=
  match ref with
  | none => (some n, ms ++ [⟨n, el, c⟩], n + 1)
  | some i => (some i, ms.map (updPos i c), n)

/-- One `if (location) { create-or-reposition }` block of an effect body. -/
def roleBlock (el : MarkerEl) (co : Option Coord) (ref : Option Nat)
    (ms : List Marker) (n : Nat) : Option Nat × List Marker × Nat :=
  match co with
  | none => (ref, ms, n)
  | some c => upsertMarker el c ref ms n

/-- Effect 1 (initialize map, `src/unnamed/part_000` lines 32–71): guarded
by `if (!mapContainer.current || map.current) return`; creates the map
centered at `restaurantLocation || defaultCenter` with zoom 13.  The
container ref is always populated when effects run. -/
def initEffect (p : Props) (s : DMState) : DMState :=
  match s.map with
  | some _ => s
  | none =>
      { s with
        map := some { center := p.restaurantLocation.getD defaultCenter, zoom := 13 },
        mapCreateCount := s.mapCreateCount + 1 }

/-- Effect 2 (update static markers, lines 74–100): guarded by
`if (!map.current || !mapLoaded) return`; one create-or-reposition block
for the restaurant, then one for the delivery destination. -/
def staticMarkersEffect (p : Props) (s : DMState) : DMState :=
  if s.map.isSome && s.mapLoaded then
    let t1 := roleBlock restaurantEl p.restaurantLocation s.restaurantMarkerRef s.markers s.nextMarkerId
    let t2 := roleBlock deliveryEl p.deliveryLocation s.deliveryMarkerRef t1.2.1 t1.2.2
    { s with
      restaurantMarkerRef := t1.1
      deliveryMarkerRef := t2.1
      markers := t2.2.1
      nextMarkerId := t2.2.2 }
  else s

/-- Effect 3 (update partner marker and track camera, lines 103–124):
guarded by `if (!map.current || !mapLoaded || !partnerLocation) return`;
creates or repositions the partner marker, then `easeTo` the partner
coordinate (center moves, zoom untouched). -/
def partnerEffect (p : Props) (s : DMState) : DMState :=
  if s.map.isSome && s.mapLoaded then
    match p.partnerLocation with
    | none => s
    | some c =>
        let t := roleBlock partnerEl (some c) s.partnerMarkerRef s.markers s.nextMarkerId
        { s with
          partnerMarkerRef := t.1
          markers := t.2.1
          nextMarkerId := t.2.2
          map := s.map.map fun mi => { mi with center := c }
          cameraLog := s.cameraLog ++ [easeCall c] }
  else s

/-- One render of the component with props `p`: the props are committed
and the three effect bodies run in source order. -/
def render (p : Props) (s : DMState) : DMState :=
  partnerEffect p (staticMarkersEffect p (initEffect p { s with lastProps := p }))

/-- The events of one mount: a render with fresh props, or the map's
one-time `load` event. -/
inductive Ev where
  | render (p : Props)
  | load
deriving DecidableEq, Repr

/-- One event step.  The `load` event fires only for a live, not yet
loaded map; it runs `setMapLoaded(true)`, which re-renders the component
with the current props. -/
def step (s : DMState) : Ev → DMState
  | .render p => render p s
  | .load =>
      if s.map.isSome && !s.mapLoaded then
        render s.lastProps { s with mapLoaded := true }
      else s

/-- Iterated event steps. -/
def steps (s : DMState) : List Ev → DMState
  | [] => s
  | e :: es => steps (step s e) es

/-- The state at mount, before the first render. -/
def init : DMState :=
  { map := none
    markers := []
    restaurantMarkerRef := none
    deliveryMarkerRef := none
    partnerMarkerRef := none
    mapLoaded := false
    nextMarkerId := 0
    mapCreateCount := 0
    cameraLog := []
    lastProps := { restaurantLocation := none, deliveryLocation := none, partnerLocation := none } }

/-- Teardown (the cleanup of effect 1, lines 66–69): `map.current.remove()`
destroys the map together with the markers it owns; the ref cells are not
cleared by the source. -/
def unmount (s : DMState) : DMState :=
  { s with map := none, markers := [] }

/-! ### What one loaded render does to refs and markers

On a loaded state a render acts on the refs, the marker list and the
allocation counter precisely as the three role blocks run in source
order; `tripleUpdate` names that composition. -/

/-- The composed marker action of the three effect bodies of one loaded
render: restaurant block, then delivery block, then partner block. -/
def tripleUpdate (p : Props) (rr rd rp : Option Nat) (ms : List Marker) (n : Nat) :
    Option Nat × Option Nat × Option Nat × List Marker × Nat :=
  let t1 := roleBlock restaurantEl p.restaurantLocation rr ms n
  let t2 := roleBlock deliveryEl p.deliveryLocation rd t1.2.1 t1.2.2
  let t3 := roleBlock partnerEl p.partnerLocation rp t2.2.1 t2.2.2
  (t1.1, t2.1, t3.1, t3.2.1, t3.2.2)

/-- The output ref of a role in a `tripleUpdate` result. -/
def triRef (r : Role) (T : Option Nat × Option Nat × Option Nat × List Marker × Nat) :
    Option Nat :=
  match r with
  | .restaurant => T.1
  | .delivery => T.2.1
  | .partner => T.2.2.1

/-- The output marker list of a `tripleUpdate` result. -/
def triMarkers (T : Option Nat × Option Nat × Option Nat × List Marker × Nat) :
    List Marker := T.2.2.2.1

/-- The output allocation counter of a `tripleUpdate` result. -/
def triNext (T : Option Nat × Option Nat × Option Nat × List Marker × Nat) : Nat :=
  T.2.2.2.2

/-- The input ref of a role among the three ref cells. -/
def pickRef (r : Role) (rr rd rp : Option Nat) : Option Nat :=
  match r with
  | .restaurant => rr
  | .delivery => rd
  | .partner => rp

/-- The state of a mount whose map has not reported loading yet is clean:
no marker exists, no ref is populated, no camera call was made. -/
def Clean (s : DMState) : Prop :=
  s.mapLoaded = false →
    s.markers = [] ∧ s.cameraLog = []
    ∧ s.restaurantMarkerRef = none ∧ s.deliveryMarkerRef = none
    ∧ s.partnerMarkerRef = none

/-- A role for which no coordinate was ever delivered: its ref is empty,
it owns no marker, and the latest props carry no coordinate for it. -/
def RoleAbsent (r : Role) (s : DMState) : Prop :=
  roleCoord r s.lastProps = none ∧ roleRef r s = none
  ∧ markersOf (roleEl r) s.markers = []

/-! ### Invariant: each role owns at most one marker, named by its ref -/

/-- Every marker on the map styled for a role is the one its ref names. -/
def RefInv (el : MarkerEl) (ref : Option Nat) (ms : List Marker) : Prop :=
  ∀ m ∈ ms, m.element = el → ref = some m.id

/-- A populated ref names a marker of its own styling on the map. -/
def RefOk (el : MarkerEl) (ref : Option Nat) (ms : List Marker) : Prop :=
  match ref with
  | none => True
  | some i => ∃ m ∈ ms, m.id = i ∧ m.element = el

/-- The per-role ownership invariant. -/
def RoleInv (el : MarkerEl) (ref : Option Nat) (ms : List Marker) : Prop :=
  RefInv el ref ms ∧ RefOk el ref ms

instance (el : MarkerEl) (ref : Option Nat) (ms : List Marker) :
    Decidable (RefInv el ref ms) :=
  inferInstanceAs (Decidable (∀ m ∈ ms, m.element = el → ref = some m.id))

instance (el : MarkerEl) (ref : Option Nat) (ms : List Marker) :
    Decidable (RefOk el ref ms) :=
  match ref with
  | none => isTrue trivial
  | some i => inferInstanceAs (Decidable (∃ m ∈ ms, m.id = i ∧ m.element = el))

instance (el : MarkerEl) (ref : Option Nat) (ms : List Marker) :
    Decidable (RoleInv el ref ms) :=
  inferInstanceAs (Decidable (RefInv el ref ms ∧ RefOk el ref ms))

/-- The component invariant: marker ids are distinct and below the
allocation counter, and each of the three roles satisfies its ownership
invariant. -/
def Inv (s : DMState) : Prop :=
  (s.markers.map Marker.id).Nodup
  ∧ (∀ m ∈ s.markers, m.id < s.nextMarkerId)
  ∧ RoleInv restaurantEl s.restaurantMarkerRef s.markers
  ∧ RoleInv deliveryEl s.deliveryMarkerRef s.markers
  ∧ RoleInv partnerEl s.partnerMarkerRef s.markers

instance (s : DMState) : Decidable (Inv s) :=
  inferInstanceAs (Decidable (_ ∧ _ ∧ _ ∧ _ ∧ _))

end DeliveryMapV2

namespace DeliveryMapV1

/-- `const center = partnerLocation || restaurantLocation || defaultCenter`
(`src/components/map/delivery-map.tsx` line 26). -/
def center (p : Props) : Coord :=
  match p.partnerLocation with
  | some c => c
  | none =>
      match p.restaurantLocation with
      | some c => c
      | none => defaultCenter

/-- Evaluation of the partner effect's dependency list
`[mapLoaded, partnerLocation.lat, partnerLocation.lng]` (line 137).  The
member accesses are not optionally chained, so when `partnerLocation` is
`undefined` the evaluation throws a `TypeError` during render. -/
def partnerEffectDeps (mapLoaded : Bool) (partnerLocation : Option Coord) :
    Except String (Bool × Rat × Rat) :=
  match partnerLocation with
  | some c => .ok (mapLoaded, c.lat, c.lng)
  | none => .error "TypeError: cannot read lat of undefined"

/-- The render-time hook evaluation of the earlier revision: the center is
computed, the static-marker effect's dependency list (line 112) uses
optional chaining and always evaluates, and the partner effect's
dependency list (line 137) is evaluated without optional chaining.
Returns the computed center, or the thrown error. -/
def render (mapLoaded : Bool) (p : Props) : Except String Coord := do
  let _staticDeps :=
    (mapLoaded, p.restaurantLocation.map Coord.lat, p.restaurantLocation.map Coord.lng,
      p.deliveryLocation.map Coord.lat, p.deliveryLocation.map Coord.lng)
  let _partnerDeps ← partnerEffectDeps mapLoaded p.partnerLocation
  pure (center p)

/-- The static-marker effect body of the earlier revision (lines 87–111)
acting on the marker list of the live map: for each present static role it
allocates a fresh marker and appends it; no ref is consulted and no
existing marker is removed or repositioned. -/
def staticMarkersEffect (p : Props) (ms : List Marker) (n : Nat) :
    List Marker × Nat :=
  let t1 :=
    match p.restaurantLocation with
    | none => (ms, n)
    | some c => (ms ++ [⟨n, restaurantEl, c⟩], n + 1)
  match p.deliveryLocation with
  | none => t1
  | some c => (t1.1 ++ [⟨t1.2, deliveryEl, c⟩], t1.2 + 1)

end DeliveryMapV1

section Fixtures

open DeliveryMapV2

/-- Props fixture: all three coordinates present. -/
def propsA : Props :=
  { restaurantLocation := some ⟨1, 2⟩, deliveryLocation := some ⟨3, 4⟩,
    partnerLocation := some ⟨5, 6⟩ }

/-- Props fixture: partner moved. -/
def propsB : Props :=
  { restaurantLocation := some ⟨1, 2⟩, deliveryLocation := some ⟨3, 4⟩,
    partnerLocation := some ⟨7, 8⟩ }

/-- Props fixture: nothing known yet. -/
def propsNone : Props :=
  { restaurantLocation := none, deliveryLocation := none, partnerLocation := none }

/-- Props fixture: only the restaurant coordinate. -/
def propsOnlyRestaurant : Props :=
  { restaurantLocation := some ⟨1, 2⟩, deliveryLocation := none,
    partnerLocation := none }

/-- Props fixture: restaurant and destination, no partner. -/
def propsNoPartner : Props :=
  { restaurantLocation := some ⟨1, 2⟩, deliveryLocation := some ⟨3, 4⟩,
    partnerLocation := none }

/-- Props fixture: only a partner coordinate. -/
def propsPartnerOnly : Props :=
  { restaurantLocation := none, deliveryLocation := none,
    partnerLocation := some ⟨10, 20⟩ }

/-- Props fixture: only a partner coordinate, second value. -/
def propsPartnerB : Props :=
  { restaurantLocation := none, deliveryLocation := none,
    partnerLocation := some ⟨5, 6⟩ }

/-- Props fixture: restaurant gone, destination moved. -/
def propsDelMove : Props :=
  { restaurantLocation := none, deliveryLocation := some ⟨9, 9⟩,
    partnerLocation := none }

/-- A loaded state carrying all three markers. -/
def loadedState : DMState := steps init [Ev.render propsA, Ev.load]

/-- A loaded state with no coordinate delivered yet. -/
def loadedEmptyState : DMState := steps init [Ev.render propsNone, Ev.load]

end Fixtures

namespace DeliveryMapV2

/-! ### Basic lemmas about `updPos`, `markersOf` and `roleBlock` -/

theorem updPos_id (i : Nat) (c : Coord) (m : Marker) : (updPos i c m).id = m.id := by
  unfold updPos; split <;> rfl

theorem updPos_element (i : Nat) (c : Coord) (m : Marker) :
    (updPos i c m).element = m.element := by
  unfold updPos; split <;> rfl

theorem updPos_of_ne (i : Nat) (c : Coord) (m : Marker) (h : m.id ≠ i) :
    updPos i c m = m := by
  unfold updPos; exact if_neg h

theorem updPos_self (i : Nat) (c : Coord) (m : Marker) (h : m.lngLat = c) :
    updPos i c m = m := by
  unfold updPos; split
  · cases m; cases h; rfl
  · rfl

theorem markersOf_append (el : MarkerEl) (ms ms' : List Marker) :
    markersOf el (ms ++ ms') = markersOf el ms ++ markersOf el ms' := by
  unfold markersOf
  rw [List.filter_append]

theorem markersOf_map_updPos (el : MarkerEl) (i : Nat) (c : Coord) (ms : List Marker) :
    markersOf el (ms.map (updPos i c)) = (markersOf el ms).map (updPos i c) := by
  unfold markersOf
  rw [List.filter_map]
  congr 1
  apply List.filter_congr
  intro a _
  simp [Function.comp, updPos_element]

theorem mem_markersOf (el : MarkerEl) (ms : List Marker) (m : Marker) :
    m ∈ markersOf el ms ↔ m ∈ ms ∧ m.element = el := by
  unfold markersOf
  simp [List.mem_filter]

/-- Distinct ids make list membership injective on ids. -/
theorem eq_of_mem_of_id_eq {ms : List Marker} (hnd : (ms.map Marker.id).Nodup)
    {m₁ m₂ : Marker} (h₁ : m₁ ∈ ms) (h₂ : m₂ ∈ ms) (h : m₁.id = m₂.id) : m₁ = m₂ :=
  List.inj_on_of_nodup_map hnd h₁ h₂ h

/-- A role whose ref is consistent has at most one marker on the map. -/
theorem length_markersOf_le_one (el : MarkerEl) (ref : Option Nat) (ms : List Marker)
    (hinv : RefInv el ref ms) (hnd : (ms.map Marker.id).Nodup) :
    (markersOf el ms).length ≤ 1 := by
  induction ms with
  | nil => simp [markersOf]
  | cons m t ih =>
      rw [List.map_cons, List.nodup_cons] at hnd
      by_cases he : m.element = el
      · have hnil : markersOf el t = [] := by
          unfold markersOf
          rw [List.filter_eq_nil_iff]
          intro a ha hpa
          have hae : a.element = el := of_decide_eq_true hpa
          have h1 := hinv a (List.mem_cons_of_mem _ ha) hae
          have h2 := hinv m (List.mem_cons_self _ _) he
          have hid : a.id = m.id := Option.some.inj (h1.symm.trans h2)
          exact hnd.1 (hid ▸ List.mem_map_of_mem Marker.id ha)
        unfold markersOf at hnil ⊢
        rw [List.filter_cons_of_pos (by simpa using he), hnil]
        simp
      · unfold markersOf
        rw [List.filter_cons_of_neg (by simpa using he)]
        exact ih (fun a ha hae => hinv a (List.mem_cons_of_mem _ ha) hae) hnd.2

/-- A list of length at most one containing `a` is `[a]`. -/
theorem eq_singleton_of_length_le_one {α : Type} {l : List α} {a : α}
    (hlen : l.length ≤ 1) (ha : a ∈ l) : l = [a] := by
  match l, ha with
  | [b], ha =>
      have : a = b := by simpa using ha
      simp [this]
  | b :: c :: t, _ => simp at hlen

theorem roleBlock_none (el : MarkerEl) (ref : Option Nat) (ms : List Marker) (n : Nat) :
    roleBlock el none ref ms n = (ref, ms, n) := rfl

theorem roleBlock_create_eq (el : MarkerEl) (c : Coord) (ms : List Marker) (n : Nat) :
    roleBlock el (some c) none ms n = (some n, ms ++ [⟨n, el, c⟩], n + 1) := rfl

theorem roleBlock_repos_eq (el : MarkerEl) (c : Coord) (i : Nat) (ms : List Marker) (n : Nat) :
    roleBlock el (some c) (some i) ms n = (some i, ms.map (updPos i c), n) := rfl

theorem map_updPos_ids (i : Nat) (c : Coord) (ms : List Marker) :
    (ms.map (updPos i c)).map Marker.id = ms.map Marker.id := by
  rw [List.map_map]
  exact List.map_congr_left fun a _ => updPos_id i c a

/-- A role's block preserves id distinctness, the id bound, and its own
ownership invariant. -/
theorem roleBlock_inv (el : MarkerEl) (co : Option Coord) (ref : Option Nat)
    (ms : List Marker) (n : Nat)
    (hnd : (ms.map Marker.id).Nodup) (hbd : ∀ m ∈ ms, m.id < n)
    (hself : RoleInv el ref ms) :
    ((roleBlock el co ref ms n).2.1.map Marker.id).Nodup
    ∧ (∀ m ∈ (roleBlock el co ref ms n).2.1, m.id < (roleBlock el co ref ms n).2.2)
    ∧ n ≤ (roleBlock el co ref ms n).2.2
    ∧ RoleInv el (roleBlock el co ref ms n).1 (roleBlock el co ref ms n).2.1 := by
  match co, ref with
  | none, ref =>
      rw [roleBlock_none]
      exact ⟨hnd, hbd, le_refl n, hself⟩
  | some c, none =>
      rw [roleBlock_create_eq]
      refine ⟨?_, ?_, Nat.le_succ n, ?_, ?_⟩
      · rw [List.map_append]
        rw [List.nodup_append]
        refine ⟨hnd, List.nodup_singleton n, ?_⟩
        intro x hx hx'
        have hxn : x = n := by simpa using hx'
        obtain ⟨m, hm, hmx⟩ := List.mem_map.1 hx
        exact absurd (hmx.trans hxn ▸ hbd m hm) (lt_irrefl n)
      · intro m hm
        rcases List.mem_append.1 hm with h | h
        · exact Nat.lt_succ_of_lt (hbd m h)
        · have : m = ⟨n, el, c⟩ := by simpa using h
          rw [this]
          exact Nat.lt_succ_self n
      · intro m hm hel
        rcases List.mem_append.1 hm with h | h
        · exact absurd (hself.1 m h hel) (by simp)
        · have : m = ⟨n, el, c⟩ := by simpa using h
          rw [this]
      · exact ⟨⟨n, el, c⟩, List.mem_append_right _ (List.mem_singleton_self _), rfl, rfl⟩
  | some c, some i =>
      rw [roleBlock_repos_eq]
      refine ⟨?_, ?_, le_refl n, ?_, ?_⟩
      · rw [map_updPos_ids]; exact hnd
      · intro m hm
        obtain ⟨m₀, hm₀, hrw⟩ := List.mem_map.1 hm
        rw [← hrw, updPos_id]
        exact hbd m₀ hm₀
      · intro m hm hel
        obtain ⟨m₀, hm₀, hrw⟩ := List.mem_map.1 hm
        rw [← hrw, updPos_id]
        rw [← hrw, updPos_element] at hel
        exact hself.1 m₀ hm₀ hel
      · obtain ⟨m₀, hm₀, hid, hel⟩ := hself.2
        refine ⟨updPos i c m₀, List.mem_map_of_mem _ hm₀, ?_, ?_⟩
        · rw [updPos_id]; exact hid
        · rw [updPos_element]; exact hel

/-- A role's block preserves the ownership invariant of a differently
styled role. -/
theorem roleBlock_roleInv_other (el : MarkerEl) (co : Option Coord) (ref : Option Nat)
    (ms : List Marker) (n : Nat) (el' : MarkerEl) (r' : Option Nat)
    (hne : el' ≠ el) (hcross : RoleInv el' r' ms) :
    RoleInv el' r' (roleBlock el co ref ms n).2.1 := by
  match co, ref with
  | none, ref => exact hcross
  | some c, none =>
      rw [roleBlock_create_eq]
      constructor
      · intro m hm hel
        rcases List.mem_append.1 hm with h | h
        · exact hcross.1 m h hel
        · have : m = ⟨n, el, c⟩ := by simpa using h
          rw [this] at hel
          exact absurd hel.symm hne
      · match r', hcross.2 with
        | none, _ => exact trivial
        | some j, ⟨m₀, hm₀, hid, hel⟩ =>
            exact ⟨m₀, List.mem_append_left _ hm₀, hid, hel⟩
  | some c, some i =>
      rw [roleBlock_repos_eq]
      constructor
      · intro m hm hel
        obtain ⟨m₀, hm₀, hrw⟩ := List.mem_map.1 hm
        rw [← hrw, updPos_id]
        rw [← hrw, updPos_element] at hel
        exact hcross.1 m₀ hm₀ hel
      · match r', hcross.2 with
        | none, _ => exact trivial
        | some j, ⟨m₀, hm₀, hid, hel⟩ =>
            refine ⟨updPos i c m₀, List.mem_map_of_mem _ hm₀, ?_, ?_⟩
            · rw [updPos_id]; exact hid
            · rw [updPos_element]; exact hel

/-- A role's block leaves the markers of a differently styled role
untouched. -/
theorem roleBlock_markersOf_other (el : MarkerEl) (co : Option Coord) (ref : Option Nat)
    (ms : List Marker) (n : Nat) (el' : MarkerEl)
    (hne : el' ≠ el) (hnd : (ms.map Marker.id).Nodup) (hself : RoleInv el ref ms) :
    markersOf el' (roleBlock el co ref ms n).2.1 = markersOf el' ms := by
  match co, ref with
  | none, ref => rfl
  | some c, none =>
      rw [roleBlock_create_eq]
      rw [markersOf_append]
      have : markersOf el' [⟨n, el, c⟩] = [] := by
        unfold markersOf
        rw [List.filter_eq_nil_iff]
        intro a ha hpa
        have : a = ⟨n, el, c⟩ := by simpa using ha
        rw [this] at hpa
        exact hne.symm (of_decide_eq_true hpa)
      rw [this, List.append_nil]
  | some c, some i =>
      rw [roleBlock_repos_eq]
      rw [markersOf_map_updPos]
      have hid : ∀ a ∈ markersOf el' ms, updPos i c a = a := by
        intro a ha
        rw [mem_markersOf] at ha
        obtain ⟨m₀, hm₀, hid₀, hel₀⟩ := hself.2
        refine updPos_of_ne i c a fun hia => ?_
        have : a = m₀ := eq_of_mem_of_id_eq hnd ha.1 hm₀ (hia.trans hid₀.symm)
        rw [this] at ha
        exact hne (ha.2 ▸ hel₀ ▸ rfl)
      rw [List.map_congr_left hid]
      simp

/-- A role's block never removes a marker: every marker survives with its
id and styling. -/
theorem roleBlock_mem_mono (el : MarkerEl) (co : Option Coord) (ref : Option Nat)
    (ms : List Marker) (n : Nat) (m : Marker) (hm : m ∈ ms) :
    ∃ m' ∈ (roleBlock el co ref ms n).2.1, m'.id = m.id ∧ m'.element = m.element := by
  match co, ref with
  | none, ref => exact ⟨m, hm, rfl, rfl⟩
  | some c, none =>
      exact ⟨m, List.mem_append_left _ hm, rfl, rfl⟩
  | some c, some i =>
      exact ⟨updPos i c m, List.mem_map_of_mem _ hm, updPos_id i c m, updPos_element i c m⟩

/-- Creating a role's first marker: the block allocates exactly one fresh
marker with the role's styling at the delivered coordinate. -/
theorem roleBlock_create_markersOf (el : MarkerEl) (c : Coord) (ms : List Marker) (n : Nat)
    (hself : RoleInv el none ms) :
    markersOf el (roleBlock el (some c) none ms n).2.1 = [⟨n, el, c⟩]
    ∧ (roleBlock el (some c) none ms n).1 = some n := by
  rw [roleBlock_create_eq]
  refine ⟨?_, rfl⟩
  have hnil : markersOf el ms = [] := by
    unfold markersOf
    rw [List.filter_eq_nil_iff]
    intro a ha hpa
    exact absurd (hself.1 a ha (of_decide_eq_true hpa)) (by simp)
  rw [markersOf_append, hnil, List.nil_append]
  unfold markersOf
  rw [List.filter_cons_of_pos (by simp), List.filter_nil]

/-- Repositioning a role's existing marker: the same marker handle moves
to the delivered coordinate and no new marker appears. -/
theorem roleBlock_repos_markersOf (el : MarkerEl) (c : Coord) (i : Nat)
    (ms : List Marker) (n : Nat)
    (hself : RoleInv el (some i) ms) (hnd : (ms.map Marker.id).Nodup) :
    ∃ m₀, markersOf el ms = [m₀] ∧ m₀.id = i ∧ m₀.element = el
      ∧ markersOf el (roleBlock el (some c) (some i) ms n).2.1 = [{ m₀ with lngLat := c }]
      ∧ (roleBlock el (some c) (some i) ms n).1 = some i := by
  obtain ⟨m₀, hm₀, hid₀, hel₀⟩ := hself.2
  have hmem : m₀ ∈ markersOf el ms := (mem_markersOf el ms m₀).2 ⟨hm₀, hel₀⟩
  have hsing : markersOf el ms = [m₀] :=
    eq_singleton_of_length_le_one (length_markersOf_le_one el (some i) ms hself.1 hnd) hmem
  refine ⟨m₀, hsing, hid₀, hel₀, ?_, rfl⟩
  rw [roleBlock_repos_eq]
  rw [markersOf_map_updPos, hsing, List.map_singleton]
  unfold updPos
  rw [if_pos hid₀]

/-! ### Frame lemmas for the three effect bodies -/

theorem initEffect_frame (p : Props) (s : DMState) :
    (initEffect p s).markers = s.markers
    ∧ (initEffect p s).restaurantMarkerRef = s.restaurantMarkerRef
    ∧ (initEffect p s).deliveryMarkerRef = s.deliveryMarkerRef
    ∧ (initEffect p s).partnerMarkerRef = s.partnerMarkerRef
    ∧ (initEffect p s).mapLoaded = s.mapLoaded
    ∧ (initEffect p s).nextMarkerId = s.nextMarkerId
    ∧ (initEffect p s).cameraLog = s.cameraLog
    ∧ (initEffect p s).lastProps = s.lastProps := by
  unfold initEffect
  cases s.map <;> exact ⟨rfl, rfl, rfl, rfl, rfl, rfl, rfl, rfl⟩

theorem initEffect_map_isSome (p : Props) (s : DMState) :
    (initEffect p s).map.isSome = true := by
  unfold initEffect
  cases h : s.map
  · rfl
  · simp [h]

theorem initEffect_map_of_isSome (p : Props) (s : DMState) (h : s.map.isSome = true) :
    initEffect p s = s := by
  unfold initEffect
  cases hm : s.map
  · rw [hm] at h; cases h
  · rfl

theorem initEffect_createCount_of_isSome (p : Props) (s : DMState) (h : s.map.isSome = true) :
    (initEffect p s).mapCreateCount = s.mapCreateCount := by
  rw [initEffect_map_of_isSome p s h]

theorem initEffect_of_none (p : Props) (s : DMState) (h : s.map = none) :
    initEffect p s =
      { s with
        map := some { center := p.restaurantLocation.getD defaultCenter, zoom := 13 },
        mapCreateCount := s.mapCreateCount + 1 } := by
  unfold initEffect
  rw [h]

theorem staticMarkersEffect_frame (p : Props) (s : DMState) :
    (staticMarkersEffect p s).map = s.map
    ∧ (staticMarkersEffect p s).mapLoaded = s.mapLoaded
    ∧ (staticMarkersEffect p s).partnerMarkerRef = s.partnerMarkerRef
    ∧ (staticMarkersEffect p s).mapCreateCount = s.mapCreateCount
    ∧ (staticMarkersEffect p s).cameraLog = s.cameraLog
    ∧ (staticMarkersEffect p s).lastProps = s.lastProps := by
  unfold staticMarkersEffect
  split <;> exact ⟨rfl, rfl, rfl, rfl, rfl, rfl⟩

theorem staticMarkersEffect_not_loaded (p : Props) (s : DMState) (h : s.mapLoaded = false) :
    staticMarkersEffect p s = s := by
  unfold staticMarkersEffect
  rw [h]
  simp

theorem partnerEffect_frame (p : Props) (s : DMState) :
    (partnerEffect p s).mapLoaded = s.mapLoaded
    ∧ (partnerEffect p s).restaurantMarkerRef = s.restaurantMarkerRef
    ∧ (partnerEffect p s).deliveryMarkerRef = s.deliveryMarkerRef
    ∧ (partnerEffect p s).mapCreateCount = s.mapCreateCount
    ∧ (partnerEffect p s).lastProps = s.lastProps := by
  unfold partnerEffect
  split
  · split <;> exact ⟨rfl, rfl, rfl, rfl, rfl⟩
  · exact ⟨rfl, rfl, rfl, rfl, rfl⟩

theorem partnerEffect_not_loaded (p : Props) (s : DMState) (h : s.mapLoaded = false) :
    partnerEffect p s = s := by
  unfold partnerEffect
  rw [h]
  simp

theorem partnerEffect_map_isSome (p : Props) (s : DMState) (h : s.map.isSome = true) :
    (partnerEffect p s).map.isSome = true := by
  unfold partnerEffect
  split
  · split
    · exact h
    · simp [h]
  · exact h

/-- A render never sets `mapLoaded`: only the load event does. -/
theorem render_mapLoaded (p : Props) (s : DMState) :
    (render p s).mapLoaded = s.mapLoaded := by
  unfold render
  rw [(partnerEffect_frame _ _).1, (staticMarkersEffect_frame _ _).2.1,
    (initEffect_frame _ _).2.2.2.2.1]

theorem render_lastProps (p : Props) (s : DMState) :
    (render p s).lastProps = p := by
  unfold render
  rw [(partnerEffect_frame _ _).2.2.2.2, (staticMarkersEffect_frame _ _).2.2.2.2.2,
    (initEffect_frame _ _).2.2.2.2.2.2.2]

/-- After any render the map exists. -/
theorem render_map_isSome (p : Props) (s : DMState) :
    (render p s).map.isSome = true := by
  unfold render
  apply partnerEffect_map_isSome
  rw [(staticMarkersEffect_frame _ _).1]
  exact initEffect_map_isSome _ _

/-- A render on a live map does not create another map. -/
theorem render_createCount_of_isSome (p : Props) (s : DMState) (h : s.map.isSome = true) :
    (render p s).mapCreateCount = s.mapCreateCount := by
  unfold render
  rw [(partnerEffect_frame _ _).2.2.2.1, (staticMarkersEffect_frame _ _).2.2.2.1]
  exact initEffect_createCount_of_isSome _ _ h

/-- Before the load event a render touches no marker, ref or camera
state. -/
theorem render_not_loaded (p : Props) (s : DMState) (hl : s.mapLoaded = false) :
    (render p s).markers = s.markers
    ∧ (render p s).restaurantMarkerRef = s.restaurantMarkerRef
    ∧ (render p s).deliveryMarkerRef = s.deliveryMarkerRef
    ∧ (render p s).partnerMarkerRef = s.partnerMarkerRef
    ∧ (render p s).cameraLog = s.cameraLog
    ∧ (render p s).nextMarkerId = s.nextMarkerId := by
  unfold render
  have h1 : (initEffect p { s with lastProps := p }).mapLoaded = false := by
    rw [(initEffect_frame _ _).2.2.2.2.1]; exact hl
  rw [staticMarkersEffect_not_loaded _ _ h1, partnerEffect_not_loaded _ _ h1]
  exact ⟨(initEffect_frame _ _).1, (initEffect_frame _ _).2.1, (initEffect_frame _ _).2.2.1,
    (initEffect_frame _ _).2.2.2.1, (initEffect_frame _ _).2.2.2.2.2.2.1,
    (initEffect_frame _ _).2.2.2.2.2.1⟩

/-! ### Preservation of the invariant -/

theorem initEffect_inv (p : Props) (s : DMState) (h : Inv s) : Inv (initEffect p s) := by
  unfold initEffect
  cases hsm : s.map
  · exact h
  · exact h

theorem staticMarkersEffect_inv (p : Props) (s : DMState) (h : Inv s) :
    Inv (staticMarkersEffect p s) := by
  obtain ⟨hnd, hbd, hR, hD, hP⟩ := h
  unfold staticMarkersEffect
  split
  · have B1 := roleBlock_inv restaurantEl p.restaurantLocation s.restaurantMarkerRef
      s.markers s.nextMarkerId hnd hbd hR
    have D1 := roleBlock_roleInv_other restaurantEl p.restaurantLocation s.restaurantMarkerRef
      s.markers s.nextMarkerId deliveryEl s.deliveryMarkerRef (by decide) hD
    have P1 := roleBlock_roleInv_other restaurantEl p.restaurantLocation s.restaurantMarkerRef
      s.markers s.nextMarkerId partnerEl s.partnerMarkerRef (by decide) hP
    have B2 := roleBlock_inv deliveryEl p.deliveryLocation s.deliveryMarkerRef
      (roleBlock restaurantEl p.restaurantLocation s.restaurantMarkerRef s.markers s.nextMarkerId).2.1
      (roleBlock restaurantEl p.restaurantLocation s.restaurantMarkerRef s.markers s.nextMarkerId).2.2
      B1.1 B1.2.1 D1
    have R2 := roleBlock_roleInv_other deliveryEl p.deliveryLocation s.deliveryMarkerRef
      (roleBlock restaurantEl p.restaurantLocation s.restaurantMarkerRef s.markers s.nextMarkerId).2.1
      (roleBlock restaurantEl p.restaurantLocation s.restaurantMarkerRef s.markers s.nextMarkerId).2.2
      restaurantEl
      (roleBlock restaurantEl p.restaurantLocation s.restaurantMarkerRef s.markers s.nextMarkerId).1
      (by decide) B1.2.2.2
    have P2 := roleBlock_roleInv_other deliveryEl p.deliveryLocation s.deliveryMarkerRef
      (roleBlock restaurantEl p.restaurantLocation s.restaurantMarkerRef s.markers s.nextMarkerId).2.1
      (roleBlock restaurantEl p.restaurantLocation s.restaurantMarkerRef s.markers s.nextMarkerId).2.2
      partnerEl s.partnerMarkerRef (by decide) P1
    exact ⟨B2.1, B2.2.1, R2, B2.2.2.2, P2⟩
  · exact ⟨hnd, hbd, hR, hD, hP⟩

theorem partnerEffect_inv (p : Props) (s : DMState) (h : Inv s) :
    Inv (partnerEffect p s) := by
  obtain ⟨hnd, hbd, hR, hD, hP⟩ := h
  unfold partnerEffect
  split
  · split
    · exact ⟨hnd, hbd, hR, hD, hP⟩
    · rename_i c heq
      have B := roleBlock_inv partnerEl (some c) s.partnerMarkerRef s.markers s.nextMarkerId
        hnd hbd hP
      have R := roleBlock_roleInv_other partnerEl (some c) s.partnerMarkerRef s.markers
        s.nextMarkerId restaurantEl s.restaurantMarkerRef (by decide) hR
      have D := roleBlock_roleInv_other partnerEl (some c) s.partnerMarkerRef s.markers
        s.nextMarkerId deliveryEl s.deliveryMarkerRef (by decide) hD
      exact ⟨B.1, B.2.1, R, D, B.2.2.2⟩
  · exact ⟨hnd, hbd, hR, hD, hP⟩

theorem render_inv (p : Props) (s : DMState) (h : Inv s) : Inv (render p s) :=
  partnerEffect_inv _ _ (staticMarkersEffect_inv _ _ (initEffect_inv _ _ h))

theorem step_inv (s : DMState) (e : Ev) (h : Inv s) : Inv (step s e) := by
  cases e with
  | render p => exact render_inv p s h
  | load =>
      unfold step
      by_cases hg : (s.map.isSome && !s.mapLoaded) = true
      · rw [if_pos hg]
        exact render_inv _ _ h
      · rw [if_neg hg]
        exact h

theorem inv_init : Inv init := by decide

theorem steps_inv (s : DMState) (evs : List Ev) (h : Inv s) : Inv (steps s evs) := by
  induction evs generalizing s with
  | nil => exact h
  | cons e es ih => exact ih (step s e) (step_inv s e h)


/-- On a loaded state, a render transforms refs, markers and the counter
exactly by `tripleUpdate`. -/
theorem render_loaded_bridge (s : DMState) (p : Props) (hl : s.mapLoaded = true) :
    (∀ r, roleRef r (render p s) =
        triRef r (tripleUpdate p s.restaurantMarkerRef s.deliveryMarkerRef
          s.partnerMarkerRef s.markers s.nextMarkerId))
    ∧ (render p s).markers =
        triMarkers (tripleUpdate p s.restaurantMarkerRef s.deliveryMarkerRef
          s.partnerMarkerRef s.markers s.nextMarkerId)
    ∧ (render p s).nextMarkerId =
        triNext (tripleUpdate p s.restaurantMarkerRef s.deliveryMarkerRef
          s.partnerMarkerRef s.markers s.nextMarkerId) := by
  obtain ⟨mp, ms, rr, rd, rp, ml, n, cc, lg, lp⟩ := s
  obtain ⟨prl, pdl, ppl⟩ := p
  replace hl : ml = true := hl
  subst hl
  refine ⟨fun r => ?_, ?_, ?_⟩
  · cases r <;> cases mp <;> cases ppl <;> rfl
  · cases mp <;> cases ppl <;> rfl
  · cases mp <;> cases ppl <;> rfl


/-- How one loaded render treats each role's ref and markers: an absent
coordinate leaves them untouched; a coordinate with an empty ref allocates
exactly one fresh styled marker at the coordinate; a coordinate with a
populated ref repositions that same marker and allocates nothing for the
role. -/
theorem tripleUpdate_desc (p : Props) (rr rd rp : Option Nat) (ms : List Marker)
    (n : Nat) (hnd : (ms.map Marker.id).Nodup) (hbd : ∀ m ∈ ms, m.id < n)
    (hR : RoleInv restaurantEl rr ms) (hD : RoleInv deliveryEl rd ms)
    (hP : RoleInv partnerEl rp ms) (r : Role) :
    (roleCoord r p = none →
      triRef r (tripleUpdate p rr rd rp ms n) = pickRef r rr rd rp
      ∧ markersOf (roleEl r) (triMarkers (tripleUpdate p rr rd rp ms n))
          = markersOf (roleEl r) ms)
    ∧ (∀ c, roleCoord r p = some c → pickRef r rr rd rp = none →
      ∃ j, triRef r (tripleUpdate p rr rd rp ms n) = some j
        ∧ markersOf (roleEl r) (triMarkers (tripleUpdate p rr rd rp ms n))
            = [⟨j, roleEl r, c⟩]
        ∧ n ≤ j)
    ∧ (∀ c i, roleCoord r p = some c → pickRef r rr rd rp = some i →
      ∃ m₀, triRef r (tripleUpdate p rr rd rp ms n) = some i
        ∧ markersOf (roleEl r) ms = [m₀] ∧ m₀.id = i ∧ m₀.element = roleEl r
        ∧ markersOf (roleEl r) (triMarkers (tripleUpdate p rr rd rp ms n))
            = [{ m₀ with lngLat := c }]) := by
  have B1 := roleBlock_inv restaurantEl p.restaurantLocation rr ms n hnd hbd hR
  have D1 := roleBlock_roleInv_other restaurantEl p.restaurantLocation rr ms n
    deliveryEl rd (by decide) hD
  have P1 := roleBlock_roleInv_other restaurantEl p.restaurantLocation rr ms n
    partnerEl rp (by decide) hP
  have B2 := roleBlock_inv deliveryEl p.deliveryLocation rd
    (roleBlock restaurantEl p.restaurantLocation rr ms n).2.1
    (roleBlock restaurantEl p.restaurantLocation rr ms n).2.2
    B1.1 B1.2.1 D1
  have P2 := roleBlock_roleInv_other deliveryEl p.deliveryLocation rd
    (roleBlock restaurantEl p.restaurantLocation rr ms n).2.1
    (roleBlock restaurantEl p.restaurantLocation rr ms n).2.2
    partnerEl rp (by decide) P1
  cases r with
  | restaurant =>
      have X2 : markersOf restaurantEl
          (roleBlock deliveryEl p.deliveryLocation rd
            (roleBlock restaurantEl p.restaurantLocation rr ms n).2.1
            (roleBlock restaurantEl p.restaurantLocation rr ms n).2.2).2.1
          = markersOf restaurantEl (roleBlock restaurantEl p.restaurantLocation rr ms n).2.1 :=
        roleBlock_markersOf_other deliveryEl p.deliveryLocation rd
          (roleBlock restaurantEl p.restaurantLocation rr ms n).2.1
          (roleBlock restaurantEl p.restaurantLocation rr ms n).2.2
          restaurantEl (by decide) B1.1 D1
      have X3 : markersOf restaurantEl
          (roleBlock partnerEl p.partnerLocation rp
            (roleBlock deliveryEl p.deliveryLocation rd
              (roleBlock restaurantEl p.restaurantLocation rr ms n).2.1
              (roleBlock restaurantEl p.restaurantLocation rr ms n).2.2).2.1
            (roleBlock deliveryEl p.deliveryLocation rd
              (roleBlock restaurantEl p.restaurantLocation rr ms n).2.1
              (roleBlock restaurantEl p.restaurantLocation rr ms n).2.2).2.2).2.1
          = markersOf restaurantEl
            (roleBlock deliveryEl p.deliveryLocation rd
              (roleBlock restaurantEl p.restaurantLocation rr ms n).2.1
              (roleBlock restaurantEl p.restaurantLocation rr ms n).2.2).2.1 :=
        roleBlock_markersOf_other partnerEl p.partnerLocation rp
          (roleBlock deliveryEl p.deliveryLocation rd
            (roleBlock restaurantEl p.restaurantLocation rr ms n).2.1
            (roleBlock restaurantEl p.restaurantLocation rr ms n).2.2).2.1
          (roleBlock deliveryEl p.deliveryLocation rd
            (roleBlock restaurantEl p.restaurantLocation rr ms n).2.1
            (roleBlock restaurantEl p.restaurantLocation rr ms n).2.2).2.2
          restaurantEl (by decide) B2.1 P2
      refine ⟨fun hco => ?_, fun c hc href => ?_, fun c i hc href => ?_⟩
      · replace hco : p.restaurantLocation = none := hco
        simp only [tripleUpdate, triRef, triMarkers, pickRef, roleEl]
        rw [X3, X2, hco, roleBlock_none]
        exact ⟨rfl, rfl⟩
      · replace hc : p.restaurantLocation = some c := hc
        replace href : rr = none := href
        subst href
        have C1 := roleBlock_create_markersOf restaurantEl c ms n hR
        refine ⟨n, ?_, ?_, le_refl n⟩
        · simp only [tripleUpdate, triRef]
          rw [hc, roleBlock_create_eq]
        · simp only [tripleUpdate, triMarkers, roleEl]
          rw [X3, X2, hc]
          exact C1.1
      · replace hc : p.restaurantLocation = some c := hc
        replace href : rr = some i := href
        subst href
        obtain ⟨m₀, hsing, hid, hel, hafter, -⟩ :=
          roleBlock_repos_markersOf restaurantEl c i ms n hR hnd
        refine ⟨m₀, ?_, hsing, hid, hel, ?_⟩
        · simp only [tripleUpdate, triRef]
          rw [hc, roleBlock_repos_eq]
        · simp only [tripleUpdate, triMarkers, roleEl]
          rw [X3, X2, hc]
          exact hafter
  | delivery =>
      have X1 : markersOf deliveryEl (roleBlock restaurantEl p.restaurantLocation rr ms n).2.1
          = markersOf deliveryEl ms :=
        roleBlock_markersOf_other restaurantEl p.restaurantLocation rr ms n
          deliveryEl (by decide) hnd hR
      have X3 : markersOf deliveryEl
          (roleBlock partnerEl p.partnerLocation rp
            (roleBlock deliveryEl p.deliveryLocation rd
              (roleBlock restaurantEl p.restaurantLocation rr ms n).2.1
              (roleBlock restaurantEl p.restaurantLocation rr ms n).2.2).2.1
            (roleBlock deliveryEl p.deliveryLocation rd
              (roleBlock restaurantEl p.restaurantLocation rr ms n).2.1
              (roleBlock restaurantEl p.restaurantLocation rr ms n).2.2).2.2).2.1
          = markersOf deliveryEl
            (roleBlock deliveryEl p.deliveryLocation rd
              (roleBlock restaurantEl p.restaurantLocation rr ms n).2.1
              (roleBlock restaurantEl p.restaurantLocation rr ms n).2.2).2.1 :=
        roleBlock_markersOf_other partnerEl p.partnerLocation rp
          (roleBlock deliveryEl p.deliveryLocation rd
            (roleBlock restaurantEl p.restaurantLocation rr ms n).2.1
            (roleBlock restaurantEl p.restaurantLocation rr ms n).2.2).2.1
          (roleBlock deliveryEl p.deliveryLocation rd
            (roleBlock restaurantEl p.restaurantLocation rr ms n).2.1
            (roleBlock restaurantEl p.restaurantLocation rr ms n).2.2).2.2
          deliveryEl (by decide) B2.1 P2
      refine ⟨fun hco => ?_, fun c hc href => ?_, fun c i hc href => ?_⟩
      · replace hco : p.deliveryLocation = none := hco
        simp only [tripleUpdate, triRef, triMarkers, pickRef, roleEl]
        rw [X3, hco, roleBlock_none]
        exact ⟨rfl, X1⟩
      · replace hc : p.deliveryLocation = some c := hc
        replace href : rd = none := href
        subst href
        have CD := roleBlock_create_markersOf deliveryEl c
          (roleBlock restaurantEl p.restaurantLocation rr ms n).2.1
          (roleBlock restaurantEl p.restaurantLocation rr ms n).2.2 D1
        refine ⟨(roleBlock restaurantEl p.restaurantLocation rr ms n).2.2, ?_, ?_, B1.2.2.1⟩
        · simp only [tripleUpdate, triRef]
          rw [hc, roleBlock_create_eq]
        · simp only [tripleUpdate, triMarkers, roleEl]
          rw [X3, hc]
          exact CD.1
      · replace hc : p.deliveryLocation = some c := hc
        replace href : rd = some i := href
        subst href
        obtain ⟨m₀, hsing, hid, hel, hafter, -⟩ :=
          roleBlock_repos_markersOf deliveryEl c i
            (roleBlock restaurantEl p.restaurantLocation rr ms n).2.1
            (roleBlock restaurantEl p.restaurantLocation rr ms n).2.2 D1 B1.1
        refine ⟨m₀, ?_, X1.symm.trans hsing, hid, hel, ?_⟩
        · simp only [tripleUpdate, triRef]
          rw [hc, roleBlock_repos_eq]
        · simp only [tripleUpdate, triMarkers, roleEl]
          rw [X3, hc]
          exact hafter
  | partner =>
      have X1 : markersOf partnerEl (roleBlock restaurantEl p.restaurantLocation rr ms n).2.1
          = markersOf partnerEl ms :=
        roleBlock_markersOf_other restaurantEl p.restaurantLocation rr ms n
          partnerEl (by decide) hnd hR
      have X2 : markersOf partnerEl
          (roleBlock deliveryEl p.deliveryLocation rd
            (roleBlock restaurantEl p.restaurantLocation rr ms n).2.1
            (roleBlock restaurantEl p.restaurantLocation rr ms n).2.2).2.1
          = markersOf partnerEl (roleBlock restaurantEl p.restaurantLocation rr ms n).2.1 :=
        roleBlock_markersOf_other deliveryEl p.deliveryLocation rd
          (roleBlock restaurantEl p.restaurantLocation rr ms n).2.1
          (roleBlock restaurantEl p.restaurantLocation rr ms n).2.2
          partnerEl (by decide) B1.1 D1
      refine ⟨fun hco => ?_, fun c hc href => ?_, fun c i hc href => ?_⟩
      · replace hco : p.partnerLocation = none := hco
        simp only [tripleUpdate, triRef, triMarkers, pickRef, roleEl]
        rw [hco, roleBlock_none]
        exact ⟨rfl, X2.trans X1⟩
      · replace hc : p.partnerLocation = some c := hc
        replace href : rp = none := href
        subst href
        have CP := roleBlock_create_markersOf partnerEl c
          (roleBlock deliveryEl p.deliveryLocation rd
            (roleBlock restaurantEl p.restaurantLocation rr ms n).2.1
            (roleBlock restaurantEl p.restaurantLocation rr ms n).2.2).2.1
          (roleBlock deliveryEl p.deliveryLocation rd
            (roleBlock restaurantEl p.restaurantLocation rr ms n).2.1
            (roleBlock restaurantEl p.restaurantLocation rr ms n).2.2).2.2 P2
        refine ⟨(roleBlock deliveryEl p.deliveryLocation rd
            (roleBlock restaurantEl p.restaurantLocation rr ms n).2.1
            (roleBlock restaurantEl p.restaurantLocation rr ms n).2.2).2.2, ?_, ?_,
          B1.2.2.1.trans B2.2.2.1⟩
        · simp only [tripleUpdate, triRef]
          rw [hc, roleBlock_create_eq]
        · simp only [tripleUpdate, triMarkers, roleEl]
          rw [hc]
          exact CP.1
      · replace hc : p.partnerLocation = some c := hc
        replace href : rp = some i := href
        subst href
        obtain ⟨m₀, hsing, hid, hel, hafter, -⟩ :=
          roleBlock_repos_markersOf partnerEl c i
            (roleBlock deliveryEl p.deliveryLocation rd
              (roleBlock restaurantEl p.restaurantLocation rr ms n).2.1
              (roleBlock restaurantEl p.restaurantLocation rr ms n).2.2).2.1
            (roleBlock deliveryEl p.deliveryLocation rd
              (roleBlock restaurantEl p.restaurantLocation rr ms n).2.1
              (roleBlock restaurantEl p.restaurantLocation rr ms n).2.2).2.2 P2 B2.1
        refine ⟨m₀, ?_, (X1.symm.trans X2.symm).trans hsing, hid, hel, ?_⟩
        · simp only [tripleUpdate, triRef]
          rw [hc, roleBlock_repos_eq]
        · simp only [tripleUpdate, triMarkers, roleEl]
          rw [hc]
          exact hafter

/-- Camera action of a loaded render with a partner coordinate: the call
`easeTo({center, duration: 1000, easing: t => t, essential: true})` moves
the center to the partner coordinate and leaves the zoom untouched. -/
theorem render_camera_some (s : DMState) (p : Props) (mi : MapInstance) (c : Coord)
    (hm : s.map = some mi) (hl : s.mapLoaded = true) (hc : p.partnerLocation = some c) :
    (render p s).map = some { mi with center := c }
    ∧ (render p s).cameraLog = s.cameraLog ++ [easeCall c] := by
  obtain ⟨mp, ms, rr, rd, rp, ml, n, cc, lg, lp⟩ := s
  replace hl : ml = true := hl
  replace hm : mp = some mi := hm
  subst hl; subst hm
  unfold render partnerEffect
  rw [hc]
  constructor <;> rfl

/-- Without a partner coordinate no camera call is made: map and camera
log are unchanged. -/
theorem render_camera_none (s : DMState) (p : Props) (mi : MapInstance)
    (hm : s.map = some mi) (hc : p.partnerLocation = none) :
    (render p s).map = some mi ∧ (render p s).cameraLog = s.cameraLog := by
  obtain ⟨mp, ms, rr, rd, rp, ml, n, cc, lg, lp⟩ := s
  replace hm : mp = some mi := hm
  subst hm
  unfold render partnerEffect
  rw [hc]
  cases ml <;> constructor <;> rfl

/-! ### Support lemmas for the claims -/

/-- The invariant yields each role's ownership invariant. -/
theorem inv_roleInv (s : DMState) (r : Role) (h : Inv s) :
    RoleInv (roleEl r) (roleRef r s) s.markers := by
  cases r
  · exact h.2.2.1
  · exact h.2.2.2.1
  · exact h.2.2.2.2

theorem pickRef_roleRef (s : DMState) (r : Role) :
    pickRef r s.restaurantMarkerRef s.deliveryMarkerRef s.partnerMarkerRef = roleRef r s := by
  cases r <;> rfl

/-- Markers survive every `tripleUpdate` with their id and styling. -/
theorem tripleUpdate_mem_mono (p : Props) (rr rd rp : Option Nat) (ms : List Marker)
    (n : Nat) (m : Marker) (hm : m ∈ ms) :
    ∃ m' ∈ triMarkers (tripleUpdate p rr rd rp ms n),
      m'.id = m.id ∧ m'.element = m.element := by
  obtain ⟨m1, hm1, hid1, hel1⟩ :=
    roleBlock_mem_mono restaurantEl p.restaurantLocation rr ms n m hm
  obtain ⟨m2, hm2, hid2, hel2⟩ :=
    roleBlock_mem_mono deliveryEl p.deliveryLocation rd
      (roleBlock restaurantEl p.restaurantLocation rr ms n).2.1
      (roleBlock restaurantEl p.restaurantLocation rr ms n).2.2 m1 hm1
  obtain ⟨m3, hm3, hid3, hel3⟩ :=
    roleBlock_mem_mono partnerEl p.partnerLocation rp
      (roleBlock deliveryEl p.deliveryLocation rd
        (roleBlock restaurantEl p.restaurantLocation rr ms n).2.1
        (roleBlock restaurantEl p.restaurantLocation rr ms n).2.2).2.1
      (roleBlock deliveryEl p.deliveryLocation rd
        (roleBlock restaurantEl p.restaurantLocation rr ms n).2.1
        (roleBlock restaurantEl p.restaurantLocation rr ms n).2.2).2.2 m2 hm2
  exact ⟨m3, hm3, hid3.trans (hid2.trans hid1), hel3.trans (hel2.trans hel1)⟩

/-- Markers survive every render with their id and styling. -/
theorem render_mem_mono (p : Props) (s : DMState) (m : Marker) (hm : m ∈ s.markers) :
    ∃ m' ∈ (render p s).markers, m'.id = m.id ∧ m'.element = m.element := by
  by_cases hl : s.mapLoaded = true
  · rw [(render_loaded_bridge s p hl).2.1]
    exact tripleUpdate_mem_mono p _ _ _ s.markers s.nextMarkerId m hm
  · replace hl : s.mapLoaded = false := by
      cases h : s.mapLoaded
      · rfl
      · exact absurd h hl
    rw [(render_not_loaded p s hl).1]
    exact ⟨m, hm, rfl, rfl⟩

/-- Markers survive every event step with their id and styling: only
teardown removes markers. -/
theorem step_mem_mono (s : DMState) (e : Ev) (m : Marker) (hm : m ∈ s.markers) :
    ∃ m' ∈ (step s e).markers, m'.id = m.id ∧ m'.element = m.element := by
  cases e with
  | render p => exact render_mem_mono p s m hm
  | load =>
      unfold step
      by_cases hg : (s.map.isSome && !s.mapLoaded) = true
      · rw [if_pos hg]
        exact render_mem_mono _ _ m hm
      · rw [if_neg hg]
        exact ⟨m, hm, rfl, rfl⟩

/-- A first render on a fresh mount creates the map. -/
theorem render_createCount_of_none (p : Props) (s : DMState) (h : s.map = none) :
    (render p s).mapCreateCount = s.mapCreateCount + 1 := by
  unfold render
  rw [(partnerEffect_frame _ _).2.2.2.1, (staticMarkersEffect_frame _ _).2.2.2.1,
    initEffect_of_none p _ (show ({ s with lastProps := p } : DMState).map = none from h)]

/-- Steps on a live map neither destroy it nor create another one. -/
theorem step_live (s : DMState) (e : Ev) (h : s.map.isSome = true) :
    (step s e).map.isSome = true ∧ (step s e).mapCreateCount = s.mapCreateCount := by
  cases e with
  | render p => exact ⟨render_map_isSome p s, render_createCount_of_isSome p s h⟩
  | load =>
      unfold step
      by_cases hg : (s.map.isSome && !s.mapLoaded) = true
      · rw [if_pos hg]
        exact ⟨render_map_isSome _ _, render_createCount_of_isSome _ _ h⟩
      · rw [if_neg hg]
        exact ⟨h, rfl⟩

theorem steps_live (s : DMState) (evs : List Ev) (h : s.map.isSome = true) :
    (steps s evs).map.isSome = true
    ∧ (steps s evs).mapCreateCount = s.mapCreateCount := by
  induction evs generalizing s with
  | nil => exact ⟨h, rfl⟩
  | cons e es ih =>
      obtain ⟨h1, h2⟩ := step_live s e h
      obtain ⟨h3, h4⟩ := ih (step s e) h1
      exact ⟨h3, h4.trans h2⟩


theorem step_clean (s : DMState) (e : Ev) (h : Clean s) : Clean (step s e) := by
  cases e with
  | render p =>
      intro hl
      replace hl : (render p s).mapLoaded = false := hl
      rw [render_mapLoaded] at hl
      obtain ⟨h1, h2, h3, h4, h5⟩ := h hl
      obtain ⟨g1, g2, g3, g4, g5, -⟩ := render_not_loaded p s hl
      exact ⟨g1.trans h1, g5.trans h2, g2.trans h3, g3.trans h4, g4.trans h5⟩
  | load =>
      unfold step
      by_cases hg : (s.map.isSome && !s.mapLoaded) = true
      · rw [if_pos hg]
        intro hl
        replace hl : (render s.lastProps { s with mapLoaded := true }).mapLoaded = false := hl
        rw [render_mapLoaded] at hl
        exact absurd (show true = false from hl) (by decide)
      · rw [if_neg hg]
        exact h

theorem clean_init : Clean init := fun _ => ⟨rfl, rfl, rfl, rfl, rfl⟩

theorem steps_clean (s : DMState) (evs : List Ev) (h : Clean s) : Clean (steps s evs) := by
  induction evs generalizing s with
  | nil => exact h
  | cons e es ih => exact ih (step s e) (step_clean s e h)

/-- Only the load event flips `mapLoaded`, and only from `false` to
`true`; once true it stays true. -/
theorem step_mapLoaded_mono (s : DMState) (e : Ev) (h : s.mapLoaded = true) :
    (step s e).mapLoaded = true := by
  cases e with
  | render p => exact (render_mapLoaded p s).trans h
  | load =>
      unfold step
      by_cases hg : (s.map.isSome && !s.mapLoaded) = true
      · rw [if_pos hg]
        exact (render_mapLoaded _ _).trans rfl
      · rw [if_neg hg]
        exact h

/-- A trace without load events never flips the loaded flag. -/
theorem steps_no_load_mapLoaded (s : DMState) (evs : List Ev)
    (h : ∀ e ∈ evs, e ≠ Ev.load) :
    (steps s evs).mapLoaded = s.mapLoaded := by
  induction evs generalizing s with
  | nil => rfl
  | cons e es ih =>
      cases e with
      | render p =>
          exact (ih (step s (Ev.render p)) fun e he => h e (List.mem_cons_of_mem _ he)).trans
            (render_mapLoaded p s)
      | load => exact absurd rfl (h Ev.load (List.mem_cons_self _ _))

theorem step_map_isSome (s : DMState) (e : Ev) (h : s.map.isSome = true) :
    (step s e).map.isSome = true := (step_live s e h).1

/-- From a fresh mount, a trace either did nothing (no render yet) or has
produced a live map. -/
theorem steps_init_disj (evs : List Ev) :
    steps init evs = init ∨ (steps init evs).map.isSome = true := by
  induction evs with
  | nil => exact Or.inl rfl
  | cons e es ih =>
      cases e with
      | render p =>
          refine Or.inr ?_
          have h1 : (step init (Ev.render p)).map.isSome = true := render_map_isSome p init
          exact (steps_live _ es h1).1
      | load =>
          have hstep : step init Ev.load = init := rfl
          rw [show steps init (Ev.load :: es) = steps (step init Ev.load) es from rfl, hstep]
          exact ih

/-- After a loaded render carrying a coordinate for a role, a marker with
the role's styling sits at that coordinate. -/
theorem render_role_marker_at (s : DMState) (p : Props) (r : Role) (c : Coord)
    (hInv : Inv s) (hl : s.mapLoaded = true) (hc : roleCoord r p = some c) :
    ∃ m ∈ (render p s).markers, m.element = roleEl r ∧ m.lngLat = c := by
  have bridge := (render_loaded_bridge s p hl).2.1
  have desc := tripleUpdate_desc p s.restaurantMarkerRef s.deliveryMarkerRef
    s.partnerMarkerRef s.markers s.nextMarkerId hInv.1 hInv.2.1 hInv.2.2.1
    hInv.2.2.2.1 hInv.2.2.2.2 r
  rw [bridge]
  cases href : roleRef r s with
  | none =>
      obtain ⟨j, -, hmk, -⟩ := desc.2.1 c hc ((pickRef_roleRef s r).trans href)
      have hmem : (⟨j, roleEl r, c⟩ : Marker) ∈ markersOf (roleEl r)
          (triMarkers (tripleUpdate p s.restaurantMarkerRef s.deliveryMarkerRef
            s.partnerMarkerRef s.markers s.nextMarkerId)) := by
        rw [hmk]
        exact List.mem_singleton_self _
      obtain ⟨hmem', -⟩ := (mem_markersOf _ _ _).1 hmem
      exact ⟨⟨j, roleEl r, c⟩, hmem', rfl, rfl⟩
  | some i =>
      obtain ⟨m₀, -, -, -, helm, hmk⟩ := desc.2.2 c i hc ((pickRef_roleRef s r).trans href)
      have hmem : ({ m₀ with lngLat := c } : Marker) ∈ markersOf (roleEl r)
          (triMarkers (tripleUpdate p s.restaurantMarkerRef s.deliveryMarkerRef
            s.partnerMarkerRef s.markers s.nextMarkerId)) := by
        rw [hmk]
        exact List.mem_singleton_self _
      obtain ⟨hmem', -⟩ := (mem_markersOf _ _ _).1 hmem
      exact ⟨{ m₀ with lngLat := c }, hmem', helm, rfl⟩

/-- A render with no coordinate for a role leaves the role's ref and
markers untouched (invariant states). -/
theorem render_role_absent (s : DMState) (p : Props) (r : Role)
    (hInv : Inv s) (hco : roleCoord r p = none) :
    roleRef r (render p s) = roleRef r s
    ∧ markersOf (roleEl r) (render p s).markers = markersOf (roleEl r) s.markers := by
  by_cases hl : s.mapLoaded = true
  · have bridge := render_loaded_bridge s p hl
    have desc := tripleUpdate_desc p s.restaurantMarkerRef s.deliveryMarkerRef
      s.partnerMarkerRef s.markers s.nextMarkerId hInv.1 hInv.2.1 hInv.2.2.1
      hInv.2.2.2.1 hInv.2.2.2.2 r
    obtain ⟨h1, h2⟩ := desc.1 hco
    constructor
    · rw [bridge.1 r, h1, pickRef_roleRef]
    · rw [bridge.2.1, h2]
  · replace hl : s.mapLoaded = false := by
      cases h : s.mapLoaded
      · rfl
      · exact absurd h hl
    obtain ⟨g1, g2, g3, g4, -, -⟩ := render_not_loaded p s hl
    constructor
    · cases r
      · exact g2
      · exact g3
      · exact g4
    · rw [g1]


theorem roleAbsent_render (r : Role) (s : DMState) (p : Props)
    (hInv : Inv s) (hJ : RoleAbsent r s) (hp : roleCoord r p = none) :
    RoleAbsent r (render p s) := by
  obtain ⟨h1, h2⟩ := render_role_absent s p r hInv hp
  refine ⟨?_, h1.trans hJ.2.1, h2.trans hJ.2.2⟩
  show roleCoord r (render p s).lastProps = none
  rw [render_lastProps]
  exact hp

theorem roleAbsent_step (r : Role) (s : DMState) (e : Ev)
    (hInv : Inv s) (hJ : RoleAbsent r s)
    (he : ∀ p, e = Ev.render p → roleCoord r p = none) :
    RoleAbsent r (step s e) := by
  cases e with
  | render p => exact roleAbsent_render r s p hInv hJ (he p rfl)
  | load =>
      unfold step
      by_cases hg : (s.map.isSome && !s.mapLoaded) = true
      · rw [if_pos hg]
        have hJ' : RoleAbsent r { s with mapLoaded := true } := by
          cases r <;> exact hJ
        have hp' : roleCoord r s.lastProps = none := hJ.1
        exact roleAbsent_render r { s with mapLoaded := true } s.lastProps hInv hJ' hp'
      · rw [if_neg hg]
        exact hJ

theorem roleAbsent_init (r : Role) : RoleAbsent r init := by
  cases r <;> exact ⟨rfl, rfl, rfl⟩

theorem roleAbsent_steps (r : Role) (s : DMState) (evs : List Ev)
    (hInv : Inv s) (hJ : RoleAbsent r s)
    (h : ∀ p, Ev.render p ∈ evs → roleCoord r p = none) :
    RoleAbsent r (steps s evs) := by
  induction evs generalizing s with
  | nil => exact hJ
  | cons e es ih =>
      exact ih (step s e) (step_inv s e hInv)
        (roleAbsent_step r s e hInv hJ fun p hep =>
          h p (hep ▸ List.mem_cons_self _ _))
        (fun p hp => h p (List.mem_cons_of_mem _ hp))

end DeliveryMapV2



/-! ### The claims -/

open DeliveryMapV2

/-- Claim C1: for every sequence of events delivered to a mounted
`DeliveryMap` and every fixed role, the number of live markers styled for
that role never exceeds one. -/
theorem C1_at_most_one_marker_per_role (evs : List Ev) (r : Role) :
    (markersOf (roleEl r) (steps init evs).markers).length ≤ 1 := by
  have hI := steps_inv init evs inv_init
  exact length_markersOf_le_one (roleEl r) (roleRef r (steps init evs))
    (steps init evs).markers (inv_roleInv _ r hI).1 hI.1

/-- Claim C2: across any sequence of coordinate-prop changes and load
events during a single mount, the map instance is created exactly once and
is never torn down and rebuilt. -/
theorem C2_map_instance_created_once (p : Props) (evs : List Ev) :
    (steps init (Ev.render p :: evs)).mapCreateCount = 1
    ∧ (steps init (Ev.render p :: evs)).map.isSome = true := by
  have h0 : (step init (Ev.render p)).map.isSome = true := render_map_isSome p init
  have hc : (step init (Ev.render p)).mapCreateCount = 1 :=
    render_createCount_of_none p init rfl
  have hs := steps_live (step init (Ev.render p)) evs h0
  exact ⟨hs.2.trans hc, hs.1⟩

/-- Claim C3: a partner coordinate delivered after readiness repositions
or creates the partner marker and eases the camera to the coordinate with
duration 1000 ms, the identity (linear) easing, and an unchanged zoom
level. -/
theorem C3_partner_update_eases_camera (s : DMState) (mi : MapInstance) (p : Props)
    (c : Coord) (hInv : Inv s) (hm : s.map = some mi) (hl : s.mapLoaded = true)
    (hc : p.partnerLocation = some c) :
    (step s (Ev.render p)).map = some { center := c, zoom := mi.zoom }
    ∧ (step s (Ev.render p)).cameraLog = s.cameraLog ++ [easeCall c]
    ∧ (easeCall c).duration = 1000
    ∧ (∀ t, (easeCall c).easing t = t)
    ∧ (easeCall c).center = c
    ∧ ∃ m ∈ (step s (Ev.render p)).markers, m.element = partnerEl ∧ m.lngLat = c := by
  have hcam := render_camera_some s p mi c hm hl hc
  have hmk := render_role_marker_at s p Role.partner c hInv hl hc
  exact ⟨hcam.1, hcam.2, rfl, fun t => rfl, rfl, hmk⟩

/-- Witness for C3 at a concrete loaded state and partner update. -/
theorem C3_witness :
    (step loadedState (Ev.render propsB)).map = some { center := ⟨7, 8⟩, zoom := 13 }
    ∧ (step loadedState (Ev.render propsB)).cameraLog
        = loadedState.cameraLog ++ [easeCall ⟨7, 8⟩]
    ∧ (easeCall (⟨7, 8⟩ : Coord)).duration = 1000
    ∧ (∀ t, (easeCall (⟨7, 8⟩ : Coord)).easing t = t)
    ∧ (easeCall (⟨7, 8⟩ : Coord)).center = ⟨7, 8⟩
    ∧ ∃ m ∈ (step loadedState (Ev.render propsB)).markers,
        m.element = partnerEl ∧ m.lngLat = ⟨7, 8⟩ :=
  C3_partner_update_eases_camera loadedState ⟨⟨5, 6⟩, 13⟩ propsB ⟨7, 8⟩
    (by decide) (by decide) (by decide) (by decide)

/-- Claim C4, counterexample: with a partner coordinate present and no
restaurant coordinate, the corrected revision creates the map at the fixed
default center, not at the partner coordinate. -/
theorem C4_counterexample_center_ignores_partner :
    propsPartnerOnly.partnerLocation = some ⟨10, 20⟩
    ∧ (steps init [Ev.render propsPartnerOnly]).map
      = some { center := defaultCenter, zoom := 13 }
    ∧ defaultCenter ≠ (⟨10, 20⟩ : Coord) :=
  ⟨by decide, by decide, by decide⟩

/-- Claim C4 as amended: on first mount the map is created centered at the
restaurant coordinate when present, else at the fixed default coordinate;
the partner coordinate plays no part in the initial center. -/
theorem C4_amended_center_restaurant_else_default (p : Props) :
    (steps init [Ev.render p]).map
      = some { center := p.restaurantLocation.getD defaultCenter, zoom := 13 } := by
  show (render p init).map = _
  unfold render
  have h1 : (initEffect p { init with lastProps := p }).mapLoaded = false :=
    (initEffect_frame _ _).2.2.2.2.1
  have h2 : (staticMarkersEffect p (initEffect p { init with lastProps := p })).mapLoaded
      = false :=
    ((staticMarkersEffect_frame _ _).2.1).trans h1
  rw [partnerEffect_not_loaded _ _ h2, staticMarkersEffect_not_loaded _ _ h1,
    initEffect_of_none p _ rfl]

/-- Claim C5: the earlier revision's partner effect lists
`partnerLocation.lat` and `partnerLocation.lng` in its dependency array
without optional chaining, so any render without a partner coordinate
throws a `TypeError`; with a partner coordinate the render succeeds. -/
theorem C5_partner_absent_dependency_crash :
    DeliveryMapV1.render true propsNoPartner
      = Except.error "TypeError: cannot read lat of undefined"
    ∧ (∀ ml p, p.partnerLocation = none →
        DeliveryMapV1.render ml p
          = Except.error "TypeError: cannot read lat of undefined")
    ∧ (∀ ml p c, p.partnerLocation = some c →
        DeliveryMapV1.render ml p = Except.ok (DeliveryMapV1.center p)) := by
  refine ⟨rfl, ?_, ?_⟩
  · intro ml p hp
    unfold DeliveryMapV1.render DeliveryMapV1.partnerEffectDeps
    rw [hp]
    rfl
  · intro ml p c hp
    unfold DeliveryMapV1.render DeliveryMapV1.partnerEffectDeps
    rw [hp]
    rfl

/-- Witness for C5's quantified conjuncts at concrete props. -/
theorem C5_witness :
    DeliveryMapV1.render false propsNone
      = Except.error "TypeError: cannot read lat of undefined"
    ∧ DeliveryMapV1.render true propsPartnerB = Except.ok ⟨5, 6⟩ :=
  ⟨C5_partner_absent_dependency_crash.2.1 false propsNone rfl,
    C5_partner_absent_dependency_crash.2.2 true propsPartnerB ⟨5, 6⟩ rfl⟩

/-- Claim C6: a restaurant or destination coordinate delivered after
readiness creates exactly one freshly allocated marker with the role's
styling when none exists, and otherwise repositions the existing marker
(same id) without creating a new one. -/
theorem C6_create_or_reposition (s : DMState) (p : Props) (r : Role) (c : Coord)
    (hInv : Inv s) (hl : s.mapLoaded = true) (_hr : r ≠ Role.partner)
    (hc : roleCoord r p = some c) :
    (roleRef r s = none →
      ∃ j, roleRef r (step s (Ev.render p)) = some j
        ∧ markersOf (roleEl r) (step s (Ev.render p)).markers = [⟨j, roleEl r, c⟩]
        ∧ j ∉ s.markers.map Marker.id)
    ∧ (∀ i, roleRef r s = some i →
      roleRef r (step s (Ev.render p)) = some i
      ∧ ∃ m₀, markersOf (roleEl r) s.markers = [m₀] ∧ m₀.id = i
        ∧ markersOf (roleEl r) (step s (Ev.render p)).markers
            = [{ m₀ with lngLat := c }]) := by
  have bridge := render_loaded_bridge s p hl
  have desc := tripleUpdate_desc p s.restaurantMarkerRef s.deliveryMarkerRef
    s.partnerMarkerRef s.markers s.nextMarkerId hInv.1 hInv.2.1 hInv.2.2.1
    hInv.2.2.2.1 hInv.2.2.2.2 r
  constructor
  · intro href
    obtain ⟨j, h1, h2, h3⟩ := desc.2.1 c hc ((pickRef_roleRef s r).trans href)
    refine ⟨j, ?_, ?_, ?_⟩
    · rw [show roleRef r (step s (Ev.render p)) = roleRef r (render p s) from rfl,
        bridge.1 r]
      exact h1
    · rw [show (step s (Ev.render p)).markers = (render p s).markers from rfl,
        bridge.2.1]
      exact h2
    · intro hmem
      obtain ⟨m, hm, hmid⟩ := List.mem_map.1 hmem
      have hlt := hInv.2.1 m hm
      rw [hmid] at hlt
      exact absurd (lt_of_lt_of_le hlt h3) (lt_irrefl j)
  · intro i href
    obtain ⟨m₀, h1, h2, h3, h4, h5⟩ := desc.2.2 c i hc ((pickRef_roleRef s r).trans href)
    refine ⟨?_, m₀, h2, h3, ?_⟩
    · rw [show roleRef r (step s (Ev.render p)) = roleRef r (render p s) from rfl,
        bridge.1 r]
      exact h1
    · rw [show (step s (Ev.render p)).markers = (render p s).markers from rfl,
        bridge.2.1]
      exact h5

/-- Witness for C6 at a loaded state with no restaurant marker yet. -/
theorem C6_witness :
    (roleRef Role.restaurant loadedEmptyState = none →
      ∃ j, roleRef Role.restaurant
          (step loadedEmptyState (Ev.render propsOnlyRestaurant)) = some j
        ∧ markersOf (roleEl Role.restaurant)
            (step loadedEmptyState (Ev.render propsOnlyRestaurant)).markers
            = [⟨j, roleEl Role.restaurant, ⟨1, 2⟩⟩]
        ∧ j ∉ loadedEmptyState.markers.map Marker.id)
    ∧ (∀ i, roleRef Role.restaurant loadedEmptyState = some i →
      roleRef Role.restaurant
          (step loadedEmptyState (Ev.render propsOnlyRestaurant)) = some i
      ∧ ∃ m₀, markersOf (roleEl Role.restaurant) loadedEmptyState.markers = [m₀]
        ∧ m₀.id = i
        ∧ markersOf (roleEl Role.restaurant)
            (step loadedEmptyState (Ev.render propsOnlyRestaurant)).markers
            = [{ m₀ with lngLat := ⟨1, 2⟩ }]) :=
  C6_create_or_reposition loadedEmptyState propsOnlyRestaurant
    Role.restaurant ⟨1, 2⟩ (by decide) (by decide) (by decide) (by decide)

/-- Claim C7: re-delivering the coordinate a role is already marked at is
idempotent — no new marker handle is created and the role's marker state
is unchanged. -/
theorem C7_idempotent_same_coordinate (s : DMState) (p : Props) (r : Role) (c : Coord)
    (i : Nat) (m₀ : Marker) (hInv : Inv s) (hl : s.mapLoaded = true)
    (href : roleRef r s = some i) (hm : markersOf (roleEl r) s.markers = [m₀])
    (hpos : m₀.lngLat = c) (hc : roleCoord r p = some c) :
    roleRef r (step s (Ev.render p)) = roleRef r s
    ∧ markersOf (roleEl r) (step s (Ev.render p)).markers
        = markersOf (roleEl r) s.markers := by
  have bridge := render_loaded_bridge s p hl
  have desc := tripleUpdate_desc p s.restaurantMarkerRef s.deliveryMarkerRef
    s.partnerMarkerRef s.markers s.nextMarkerId hInv.1 hInv.2.1 hInv.2.2.1
    hInv.2.2.2.1 hInv.2.2.2.2 r
  obtain ⟨m₁, h1, h2, h3, h4, h5⟩ := desc.2.2 c i hc ((pickRef_roleRef s r).trans href)
  have hm01 : m₀ = m₁ := by
    have h := hm.symm.trans h2
    simpa using h
  have hfix : ({ m₀ with lngLat := c } : Marker) = m₀ := by
    cases m₀
    cases hpos
    rfl
  constructor
  · rw [show roleRef r (step s (Ev.render p)) = roleRef r (render p s) from rfl,
      bridge.1 r, href]
    exact h1
  · rw [show (step s (Ev.render p)).markers = (render p s).markers from rfl,
      bridge.2.1, h5, hm, ← hm01, hfix]

/-- Witness for C7: re-delivering the restaurant coordinate already shown. -/
theorem C7_witness :
    roleRef Role.restaurant (step loadedState (Ev.render propsA))
        = roleRef Role.restaurant loadedState
    ∧ markersOf (roleEl Role.restaurant) (step loadedState (Ev.render propsA)).markers
        = markersOf (roleEl Role.restaurant) loadedState.markers :=
  C7_idempotent_same_coordinate loadedState propsA Role.restaurant ⟨1, 2⟩ 0
    ⟨0, restaurantEl, ⟨1, 2⟩⟩ (by decide) (by decide) (by decide) (by decide)
    (by decide) (by decide)

/-- Claim C8: a role for which no coordinate is ever supplied across the
whole mount never gets a marker and its ref stays empty. -/
theorem C8_never_supplied_no_marker (r : Role) (evs : List Ev)
    (h : ∀ p, Ev.render p ∈ evs → roleCoord r p = none) :
    roleRef r (steps init evs) = none
    ∧ markersOf (roleEl r) (steps init evs).markers = [] := by
  have hJ := roleAbsent_steps r init evs inv_init (roleAbsent_init r) h
  exact ⟨hJ.2.1, hJ.2.2⟩

/-- Witness for C8: mount with restaurant and destination but no partner. -/
theorem C8_witness :
    roleRef Role.partner (steps init [Ev.render propsNoPartner, Ev.load]) = none
    ∧ markersOf (roleEl Role.partner)
        (steps init [Ev.render propsNoPartner, Ev.load]).markers = [] :=
  C8_never_supplied_no_marker Role.partner _ (by
    intro p hp
    rcases List.mem_cons.1 hp with h | h
    · cases h
      rfl
    · exact absurd (List.mem_singleton.1 h) fun hh => Ev.noConfusion hh)

/-- Claim C9: before the load signal no marker exists, no camera call has
been made and no ref is populated; the loaded flag never reverts; and
coordinate props delivered before readiness are applied (markers placed,
camera eased) by the re-render the load signal triggers. -/
theorem C9_readiness_gating :
    (∀ evs, (steps init evs).mapLoaded = false →
      (steps init evs).markers = [] ∧ (steps init evs).cameraLog = []
      ∧ ∀ r, roleRef r (steps init evs) = none)
    ∧ (∀ s e, s.mapLoaded = true → (step s e).mapLoaded = true)
    ∧ (∀ evs, (∀ e ∈ evs, e ≠ Ev.load) →
        (∀ r c, roleCoord r (steps init evs).lastProps = some c →
          ∃ m ∈ (step (steps init evs) Ev.load).markers,
            m.element = roleEl r ∧ m.lngLat = c)
        ∧ ∀ c, (steps init evs).lastProps.partnerLocation = some c →
            (step (steps init evs) Ev.load).cameraLog = [easeCall c]) := by
  refine ⟨?_, step_mapLoaded_mono, ?_⟩
  · intro evs hml
    obtain ⟨h1, h2, h3, h4, h5⟩ := steps_clean init evs clean_init hml
    refine ⟨h1, h2, fun r => ?_⟩
    cases r
    · exact h3
    · exact h4
    · exact h5
  · intro evs hnl
    rcases steps_init_disj evs with hinit | hsome
    · rw [hinit]
      constructor
      · intro r c hc
        cases r <;> exact Option.noConfusion hc
      · intro c hc
        exact Option.noConfusion hc
    · have hml : (steps init evs).mapLoaded = false :=
        (steps_no_load_mapLoaded init evs hnl).trans rfl
      obtain ⟨hmk, hcl, -, -, -⟩ := steps_clean init evs clean_init hml
      have hInv := steps_inv init evs inv_init
      have hg : ((steps init evs).map.isSome && !(steps init evs).mapLoaded) = true := by
        rw [hsome, hml]
        rfl
      have hstep : step (steps init evs) Ev.load
          = render (steps init evs).lastProps { steps init evs with mapLoaded := true } := by
        unfold step
        rw [if_pos hg]
      constructor
      · intro r c hc
        rw [hstep]
        exact render_role_marker_at { steps init evs with mapLoaded := true }
          (steps init evs).lastProps r c hInv rfl hc
      · intro c hc
        rw [hstep]
        obtain ⟨mi, hmi⟩ := Option.isSome_iff_exists.1 hsome
        have hcam := render_camera_some { steps init evs with mapLoaded := true }
          (steps init evs).lastProps mi c hmi rfl hc
        rw [hcam.2,
          show ({ steps init evs with mapLoaded := true } : DMState).cameraLog
            = (steps init evs).cameraLog from rfl, hcl]
        rfl

/-- Witness for C9 at concrete traces. -/
theorem C9_witness :
    ((steps init [Ev.render propsA]).markers = []
      ∧ (steps init [Ev.render propsA]).cameraLog = []
      ∧ ∀ r, roleRef r (steps init [Ev.render propsA]) = none)
    ∧ (step loadedState Ev.load).mapLoaded = true
    ∧ (∃ m ∈ (step (steps init [Ev.render propsA]) Ev.load).markers,
        m.element = roleEl Role.partner ∧ m.lngLat = ⟨5, 6⟩)
    ∧ (step (steps init [Ev.render propsA]) Ev.load).cameraLog = [easeCall ⟨5, 6⟩] := by
  refine ⟨C9_readiness_gating.1 [Ev.render propsA] (by decide),
    C9_readiness_gating.2.1 loadedState Ev.load (by decide), ?_, ?_⟩
  · exact (C9_readiness_gating.2.2 [Ev.render propsA] (by decide)).1
      Role.partner ⟨5, 6⟩ (by decide)
  · exact (C9_readiness_gating.2.2 [Ev.render propsA] (by decide)).2 ⟨5, 6⟩ (by decide)

/-- Claim C10: an update with a role's coordinate absent leaves that
role's ref and marker state untouched; no event removes a marker; only
teardown empties the marker list. -/
theorem C10_absent_coordinate_frame (s : DMState) (p : Props) (r : Role)
    (hInv : Inv s) (hco : roleCoord r p = none) :
    roleRef r (step s (Ev.render p)) = roleRef r s
    ∧ markersOf (roleEl r) (step s (Ev.render p)).markers
        = markersOf (roleEl r) s.markers
    ∧ (∀ e m, m ∈ s.markers →
        ∃ m' ∈ (step s e).markers, m'.id = m.id ∧ m'.element = m.element)
    ∧ (unmount s).markers = [] := by
  obtain ⟨h1, h2⟩ := render_role_absent s p r hInv hco
  exact ⟨h1, h2, fun e m hm => step_mem_mono s e m hm, rfl⟩

/-- Witness for C10: the restaurant coordinate disappears while the
destination moves. -/
theorem C10_witness :
    roleRef Role.restaurant (step loadedState (Ev.render propsDelMove))
        = roleRef Role.restaurant loadedState
    ∧ markersOf (roleEl Role.restaurant)
        (step loadedState (Ev.render propsDelMove)).markers
        = markersOf (roleEl Role.restaurant) loadedState.markers
    ∧ (∀ e m, m ∈ loadedState.markers →
        ∃ m' ∈ (step loadedState e).markers, m'.id = m.id ∧ m'.element = m.element)
    ∧ (unmount loadedState).markers = [] :=
  C10_absent_coordinate_frame loadedState propsDelMove
    Role.restaurant (by decide) (by decide)

/-- Historical note (earlier revision): its static-marker effect appends a
fresh restaurant marker on every run, so two runs leave two restaurant
markers — the duplicate-marker defect the corrected revision fixes. -/
theorem deliveryMapV1_static_marker_leak :
    (markersOf restaurantEl
      (DeliveryMapV1.staticMarkersEffect
        { restaurantLocation := some ⟨1, 2⟩, deliveryLocation := none,
          partnerLocation := none }
        (DeliveryMapV1.staticMarkersEffect
          { restaurantLocation := some ⟨1, 2⟩, deliveryLocation := none,
            partnerLocation := none } [] 0).1
        (DeliveryMapV1.staticMarkersEffect
          { restaurantLocation := some ⟨1, 2⟩, deliveryLocation := none,
            partnerLocation := none } [] 0).2).1).length = 2 := by
  decide

end Foodie
